import Mathlib

/-!
Formal model of the suspend/resume coordination core of vcml
(`vcml/debugging/suspender.cpp`): the `suspend_manager` singleton
("Gate"), per-controller `suspender` handles, and the loop-boundary
hook `handle_requests`.

The shared state (`registry`, the `is_suspended` flag, the loop-block
mutex `sysc_lock`) is embedded as an explicit record; the per-handle
nesting counters `m_pcount` are embedded as a function from handle
identities (Nat) to Int, matching the signed C++ counter.  Fatal
reports (`VCML_ERROR`) are embedded as an error value returned next to
the post-state, so that side effects sequenced before the report stay
observable, exactly as they do on the C++ member after a throw.
-/

namespace VcmlSuspend

/-- The two fatal reports the core can raise. -/
inductive Err where
  | notRunning
  | unmatchedResume
deriving DecidableEq, Repr

/-- Pointwise update of a counter map, used for `m_pcount` writes. -/
def updFn (f : Nat → Int) (k : Nat) (v : Int) : Nat → Int :=
  fun n => if n = k then v else f n

/-- Model of `stl_contains(v, x)`: membership test on the registry vector. -/
def stl_contains (l : List Nat) (x : Nat) : Bool :=
  decide (x ∈ l)

/-- Model of `stl_add_unique(v, x)`: append `x` unless already present. -/
def stl_add_unique (l : List Nat) (x : Nat) : List Nat :=
  if stl_contains l x then l else l ++ [x]

/-- Model of `stl_remove_erase(v, x)`: erase every occurrence of `x`. -/
def stl_remove_erase (l : List Nat) (x : Nat) : List Nat :=
  l.filter (fun y => y != x)

/-- Shared state of `suspend_manager` plus the per-handle counters.
`registry` is the `suspenders` vector (insertion order), `suspended`
is the `is_suspended` atomic flag, `lock_held` says whether the loop
thread currently holds `sysc_lock`, `running` is `sc_is_running()`,
and `notifyCount` counts `sysc_notify.notify_all()` calls. -/
structure SysState where
  registry : List Nat
  pcounts : Nat → Int
  suspended : Bool
  lock_held : Bool
  running : Bool
  notifyCount : Nat

/-- Model of `suspend_manager::count()`: current registry size. -/
def count1 (s : SysState) : Nat :=
  s.registry.length

/-- Model of `suspend_manager::is_suspending(s)`: registry membership. -/
def is_suspending1 (s : SysState) (id : Nat) : Bool :=
  stl_contains s.registry id

/-- Model of `suspend_manager::current()`: `try_lock` on `sysc_lock` fails iff
the loop thread holds it, in which case `nullptr` is returned; else
the lock is released again and the front registry entry (if any) is
returned. -/
def current1 (s : SysState) : Option Nat :=
  if s.lock_held then none else s.registry.head?

/-- Model of `suspend_manager::request_pause`: fatal if the simulation is not
running (checked before any mutation), else idempotent insert. -/
def request_pause1 (s : SysState) (id : Nat) : SysState × Option Err :=
  if s.running then
    ({ s with registry := stl_add_unique s.registry id }, none)
  else
    (s, some Err.notRunning)

/-- Model of `suspend_manager::request_resume`: idempotent removal; notifies
the loop thread when the registry becomes empty. -/
def request_resume1 (s : SysState) (id : Nat) : SysState :=
  let r := stl_remove_erase s.registry id
  { s with
      registry := r,
      notifyCount := if r.isEmpty then s.notifyCount + 1 else s.notifyCount }

/-- Model of `suspend_manager::force_resume`: clears the whole registry and
unconditionally notifies the loop thread. -/
def force_resume1 (s : SysState) : SysState :=
  { s with registry := [], notifyCount := s.notifyCount + 1 }

/-- Model of `suspender::suspend` (state part): `m_pcount++` happens first; on
the 0 → 1 transition `request_pause` runs, which may raise the fatal
"cannot suspend, simulation not running" report after the increment. -/
def suspend1 (s : SysState) (id : Nat) : SysState × Option Err :=
  let old := s.pcounts id
  let s1 := { s with pcounts := updFn s.pcounts id (old + 1) }
  if old = 0 then request_pause1 s1 id else (s1, none)

/-- Model of `suspender::resume`: `--m_pcount`; on reaching 0, `request_resume`;
afterwards the "unmatched resume" report fires if the counter went
negative. -/
def resume1 (s : SysState) (id : Nat) : SysState × Option Err :=
  let newc := s.pcounts id - 1
  let s1 := { s with pcounts := updFn s.pcounts id newc }
  let s2 := if newc = 0 then request_resume1 s1 id else s1
  (s2, if newc < 0 then some Err.unmatchedResume else none)

/-- Model of `suspender::~suspender`: `if (is_suspending()) resume();` — a
single `resume()` call, whatever the remaining nesting depth. -/
def dtor1 (s : SysState) (id : Nat) : SysState × Option Err :=
  if is_suspending1 s id then resume1 s id else (s, none)

/-- Operations a controller thread can perform on the core. -/
inductive Op where
  | suspendOp (id : Nat)
  | resumeOp (id : Nat)
  | dtorOp (id : Nat)
  | forceOp

/-- One operation step. -/
def step1 (s : SysState) : Op → SysState × Option Err
  | Op.suspendOp id => suspend1 s id
  | Op.resumeOp id => resume1 s id
  | Op.dtorOp id => dtor1 s id
  | Op.forceOp => (force_resume1 s, none)

/-- Run a sequence of operations, stopping at the first fatal report
(the report is fatal in C++; the state records effects up to it). -/
def run1 (s : SysState) : List Op → SysState × Option Err
  | [] => (s, none)
  | op :: ops =>
    match step1 s op with
    | (s', none) => run1 s' ops
    | (s', some e) => (s', some e)

/-- Initial state: the `suspend_manager` constructor starts with an
empty registry, `is_suspended = false`, and locks `sysc_lock` on the
loop thread; the simulation is taken to be running. -/
def s0 : SysState :=
  { registry := []
    pcounts := fun _ => 0
    suspended := false
    lock_held := true
    running := true
    notifyCount := 0 }

/-- External-thread events that can occur while the loop thread is
blocked inside `handle_requests`. -/
inductive Event where
  | resumeEv (id : Nat)
  | forceEv

/-- Effect of one external event on the shared state. -/
def applyEvent (s : SysState) : Event → SysState
  | Event.resumeEv id => (resume1 s id).1
  | Event.forceEv => force_resume1 s

/-- The predicate wait `sysc_notify.wait(sysc_lock, count() == 0)`:
re-checks the predicate at each wakeup and only returns once the
registry is empty; `none` models blocking forever because the supplied
events never empty the registry. -/
def waitLoop : SysState → List Event → Option SysState
  | s, [] => if s.registry.isEmpty then some s else none
  | s, e :: rest =>
    if s.registry.isEmpty then some s else waitLoop (applyEvent s e) rest

/-- Outcome of one `handle_requests` boundary invocation: final state,
number of `notify_suspend()` and `notify_resume()` traversals invoked,
and the value of the paused flag while waiting. -/
structure HRResult where
  state : SysState
  preCount : Nat
  postCount : Nat
  pausedDuring : Bool

/-- Model of `suspend_manager::handle_requests`, driven by the external events
that occur while the loop thread is blocked: fast-path return when the
registry is empty; otherwise set `is_suspended`, run `notify_suspend`
once, release `sysc_lock` inside the predicate wait, and on wakeup run
`notify_resume` once, retake the lock and clear `is_suspended`. -/
def handle_requests1 (s : SysState) (events : List Event) : Option HRResult :=
  if count1 s = 0 then
    some ⟨s, 0, 0, false⟩
  else
    let s1 := { s with suspended := true, lock_held := false }
    match waitLoop s1 events with
    | none => none
    | some s2 => some ⟨{ s2 with suspended := false, lock_held := true }, 1, 1, s1.suspended⟩

/-- A node of the SystemC object hierarchy: an `sc_object` with its
children; `isModule` says whether `dynamic_cast<module*>` succeeds. -/
inductive SCObject where
  | node (id : Nat) (isModule : Bool) (children : List SCObject)

mutual

/-- Model of `suspend_manager::notify_suspend(obj)`: recurse into all children
first, then invoke `session_suspend()` on the object itself when it is
a module.  The result lists the ids of the invoked callbacks in call
order. -/
def notify_suspend_obj : SCObject → List Nat
  | SCObject.node i m cs => notify_suspend_list cs ++ (if m then [i] else [])

/-- Traversal of a list of sibling objects for `notify_suspend`. -/
def notify_suspend_list : List SCObject → List Nat
  | [] => []
  | c :: cs => notify_suspend_obj c ++ notify_suspend_list cs

end

mutual

/-- Model of `suspend_manager::notify_resume(obj)`: same traversal shape, with
`session_resume()` as the callback. -/
def notify_resume_obj : SCObject → List Nat
  | SCObject.node i m cs => notify_resume_list cs ++ (if m then [i] else [])

/-- Traversal of a list of sibling objects for `notify_resume`. -/
def notify_resume_list : List SCObject → List Nat
  | [] => []
  | c :: cs => notify_resume_obj c ++ notify_resume_list cs

end

mutual

/-- Number of module nodes carrying id `j` in a tree. -/
def module_count : SCObject → Nat → Nat
  | SCObject.node i m cs, j =>
    module_count_list cs j + (if m && (i == j) then 1 else 0)

/-- Number of module nodes carrying id `j` in a forest. -/
def module_count_list : List SCObject → Nat → Nat
  | [], _ => 0
  | c :: cs, j => module_count c j + module_count_list cs j

end

/-! ### Helper lemmas -/

theorem updFn_same (f : Nat → Int) (k : Nat) (v : Int) : updFn f k v k = v := by
  simp [updFn]

theorem updFn_updFn (f : Nat → Int) (k : Nat) (a b : Int) :
    updFn (updFn f k a) k b = updFn f k b := by
  funext n
  by_cases h : n = k <;> simp [updFn, h]

theorem updFn_self (f : Nat → Int) (k : Nat) : updFn f k (f k) = f := by
  funext n
  by_cases h : n = k <;> simp [updFn, h]

theorem stl_contains_iff (l : List Nat) (x : Nat) : stl_contains l x = true ↔ x ∈ l := by
  simp [stl_contains]

theorem stl_contains_false_iff (l : List Nat) (x : Nat) :
    stl_contains l x = false ↔ x ∉ l := by
  simp [stl_contains]

theorem stl_remove_erase_of_not_mem {l : List Nat} {x : Nat} (h : x ∉ l) :
    stl_remove_erase l x = l := by
  rw [stl_remove_erase, List.filter_eq_self]
  intro y hy
  simp only [bne_iff_ne, ne_eq]
  intro he
  exact h (he ▸ hy)

theorem mem_stl_remove_erase (l : List Nat) (x j : Nat) :
    j ∈ stl_remove_erase l x ↔ j ∈ l ∧ j ≠ x := by
  simp [stl_remove_erase]

theorem stl_remove_erase_add_unique (l : List Nat) (x : Nat) :
    stl_remove_erase (stl_add_unique l x) x = stl_remove_erase l x := by
  by_cases h : stl_contains l x
  · simp [stl_add_unique, h]
  · simp [stl_add_unique, h, stl_remove_erase, List.filter_append]

/-! ### Theorems about the embedded operations -/

/-- C9: If `suspend()` is called on a handle with nesting counter 0
while the simulation is not running, `m_pcount++` has already run when
the fatal "cannot suspend, simulation not running" report is raised:
the counter is left at 1 (not unchanged), while the registry is left
untouched. -/
theorem suspend_not_running_increments_before_error (s : SysState) (id : Nat)
    (h1 : s.running = false) (h2 : s.pcounts id = 0) :
    (suspend1 s id).2 = some Err.notRunning ∧
    (suspend1 s id).1.pcounts id = 1 ∧
    (suspend1 s id).1.registry = s.registry := by
  simp [suspend1, request_pause1, h1, h2, updFn]

/-- Witness for C9 at a concrete state. -/
theorem suspend_not_running_increments_before_error_witness :
    (suspend1 { s0 with running := false } 1).2 = some Err.notRunning ∧
    (suspend1 { s0 with running := false } 1).1.pcounts 1 = 1 ∧
    (suspend1 { s0 with running := false } 1).1.registry =
      ({ s0 with running := false } : SysState).registry :=
  suspend_not_running_increments_before_error { s0 with running := false } 1 rfl rfl

/-- C10: Destroying a handle whose identity is not in the registry
performs no Gate operation: the destructor's `is_suspending()` test
fails, so registry contents, `count()` and the paused flag are all
unchanged and no report is raised. -/
theorem dtor_inactive_is_noop (s : SysState) (id : Nat)
    (h : is_suspending1 s id = false) :
    dtor1 s id = (s, none) ∧
    (dtor1 s id).1.registry = s.registry ∧
    count1 (dtor1 s id).1 = count1 s ∧
    (dtor1 s id).1.suspended = s.suspended := by
  simp [dtor1, h]

/-- Witness for C10 at a concrete state. -/
theorem dtor_inactive_is_noop_witness :
    dtor1 s0 1 = (s0, none) ∧
    (dtor1 s0 1).1.registry = s0.registry ∧
    count1 (dtor1 s0 1).1 = count1 s0 ∧
    (dtor1 s0 1).1.suspended = s0.suspended :=
  dtor_inactive_is_noop s0 1 rfl

/-- C1: Destroying a handle with nesting counter 2 performs only a
single `resume()`: afterwards the counter is 1, the identity is still
registered and `count()` is 1 (not 0) — the registry keeps a dangling
identity, contrary to the documented full-release teardown. -/
theorem destroy_nested_handle_leaves_dangling_registry_entry :
    (run1 s0 [Op.suspendOp 1, Op.suspendOp 1, Op.dtorOp 1]).2 = none ∧
    is_suspending1 (run1 s0 [Op.suspendOp 1, Op.suspendOp 1, Op.dtorOp 1]).1 1 = true ∧
    count1 (run1 s0 [Op.suspendOp 1, Op.suspendOp 1, Op.dtorOp 1]).1 = 1 ∧
    (run1 s0 [Op.suspendOp 1, Op.suspendOp 1, Op.dtorOp 1]).1.pcounts 1 = 1 := by
  decide

/-- A state in which the loop thread has released the loop-block mutex
(it is parked inside the boundary wait) and one identity is registered. -/
def sProbe : SysState :=
  { registry := [7]
    pcounts := updFn (fun _ => 0) 7 1
    suspended := true
    lock_held := false
    running := true
    notifyCount := 0 }

/-- The same state with the loop thread holding the loop-block mutex. -/
def sProbeHeld : SysState :=
  { sProbe with lock_held := true }

/-- C2 counterexample: when the non-blocking probe of `sysc_lock`
succeeds (the loop thread is not holding it), `current()` returns the
front registry entry, not none; and when the probe fails it returns
none, not the first registry entry — the opposite of the claim. -/
theorem current_probe_claim_false :
    (sProbe.lock_held = false ∧ current1 sProbe ≠ none) ∧
    (sProbeHeld.lock_held = true ∧ current1 sProbeHeld ≠ some 7) := by
  decide

/-- C2 amended: if the probe of the loop-block mutex fails (the loop
thread holds it, so the loop is not paused), `current()` is none
regardless of registry contents; if the probe succeeds, the first
registry entry (none when empty) is returned. -/
theorem current_probe_semantics (s : SysState) :
    (s.lock_held = true → current1 s = none) ∧
    (s.lock_held = false → current1 s = s.registry.head?) := by
  constructor <;> intro h <;> simp [current1, h]

/-- Witness for the amended C2 at concrete states. -/
theorem current_probe_semantics_witness :
    current1 sProbeHeld = none ∧ current1 sProbe = some 7 :=
  ⟨(current_probe_semantics sProbeHeld).1 rfl,
   by rw [(current_probe_semantics sProbe).2 rfl]; rfl⟩

/-- C6: `current()` returns none when the registry is empty or the
loop is not paused (loop thread holding the loop-block mutex), and
otherwise returns the front — i.e. earliest-registered still-active —
registry entry. -/
theorem current_returns_earliest_active (s : SysState) (a : Nat) (rest : List Nat) :
    (s.registry = [] → current1 s = none) ∧
    (s.lock_held = true → current1 s = none) ∧
    (s.lock_held = false → s.registry = a :: rest → current1 s = some a) := by
  refine ⟨fun h => ?_, fun h => ?_, fun h h2 => ?_⟩ <;> simp [current1, h]
  simp [h2]

/-- The claim's scenario: identities 1 then 2 register while the loop
is paused. -/
def sScenA : SysState :=
  (suspend1 (suspend1 { s0 with lock_held := false } 1).1 2).1

/-- The scenario state after identity 1 resumes (2 still active). -/
def sScenB : SysState :=
  (resume1 sScenA 1).1

/-- Witness for C6: in the scenario, `current()` yields identity 1
while both are active, and identity 2 after 1 resumes. -/
theorem current_returns_earliest_active_witness :
    current1 sScenA = some 1 ∧ current1 sScenB = some 2 :=
  ⟨(current_returns_earliest_active sScenA 1 [2]).2.2 rfl rfl,
   (current_returns_earliest_active sScenB 2 []).2.2 rfl rfl⟩

/-- C7: `force_resume()` unconditionally empties the registry and
notifies the loop thread; a later `resume()` on a handle whose
identity was cleared while its counter was still positive completes
without any report and leaves the registry unchanged. -/
theorem force_resume_clears_and_cleared_resume_is_noop :
    (∀ s : SysState,
      (force_resume1 s).registry = [] ∧
      (force_resume1 s).notifyCount = s.notifyCount + 1) ∧
    (∀ (s : SysState) (id : Nat), is_suspending1 s id = false → 0 < s.pcounts id →
      (resume1 s id).2 = none ∧ (resume1 s id).1.registry = s.registry) := by
  constructor
  · intro s
    exact ⟨rfl, rfl⟩
  · intro s id h hp
    have hm : id ∉ s.registry := (stl_contains_false_iff _ _).mp h
    have hnn : ¬ (s.pcounts id - 1 < 0) := by omega
    refine ⟨by simp [resume1, hnn], ?_⟩
    by_cases hz : s.pcounts id - 1 = 0
    · simp [resume1, hz, request_resume1, stl_remove_erase_of_not_mem hm]
    · simp [resume1, hz]

/-- A state as left behind by `force_resume` racing a doubly nested
holder: registry empty, but identity 5 still has counter 2. -/
def sCleared : SysState :=
  { s0 with pcounts := updFn (fun _ => 0) 5 2 }

/-- Witness for C7 at concrete states. -/
theorem force_resume_clears_and_cleared_resume_is_noop_witness :
    (force_resume1 s0).registry = [] ∧
    (resume1 sCleared 5).2 = none ∧
    (resume1 sCleared 5).1.registry = sCleared.registry :=
  ⟨(force_resume_clears_and_cleared_resume_is_noop.1 s0).1,
   (force_resume_clears_and_cleared_resume_is_noop.2 sCleared 5 rfl (by decide)).1,
   (force_resume_clears_and_cleared_resume_is_noop.2 sCleared 5 rfl (by decide)).2⟩

/-! ### Hierarchy notification traversals -/

mutual

theorem count_notify_suspend_obj (t : SCObject) (j : Nat) :
    (notify_suspend_obj t).count j = module_count t j := by
  cases t with
  | node i m cs =>
    rw [notify_suspend_obj, module_count, List.count_append,
      count_notify_suspend_list cs j]
    cases m <;> simp [List.count_singleton']

theorem count_notify_suspend_list (l : List SCObject) (j : Nat) :
    (notify_suspend_list l).count j = module_count_list l j := by
  cases l with
  | nil => rfl
  | cons c cs =>
    rw [notify_suspend_list, module_count_list, List.count_append,
      count_notify_suspend_obj c j, count_notify_suspend_list cs j]

end

mutual

theorem notify_resume_obj_eq_suspend (t : SCObject) :
    notify_resume_obj t = notify_suspend_obj t := by
  cases t with
  | node i m cs =>
    rw [notify_resume_obj, notify_suspend_obj, notify_resume_list_eq_suspend cs]

theorem notify_resume_list_eq_suspend (l : List SCObject) :
    notify_resume_list l = notify_suspend_list l := by
  cases l with
  | nil => rfl
  | cons c cs =>
    rw [notify_resume_list, notify_suspend_list, notify_resume_obj_eq_suspend c,
      notify_resume_list_eq_suspend cs]

end

/-- C5 counterexample: the pre-pause traversal visits children before
their parent.  On the two-node hierarchy with module 0 owning module 1,
the `session_suspend` calls occur in the order [1, 0] — not the
root-to-leaf order [0, 1] the claim states. -/
theorem notify_suspend_order_not_root_to_leaf :
    notify_suspend_obj (SCObject.node 0 true [SCObject.node 1 true []]) = [1, 0] ∧
    ([1, 0] : List Nat) ≠ [0, 1] := by
  decide

/-- C5 amended: the pre-pause traversal invokes the pause callback
exactly once per module node (its multiplicity in the call trace
equals the number of module nodes with that id), the post-resume
traversal produces the identical call trace — so the node sets
covered are identical — and the order is leaf-to-root: a module's own
callback comes after those of its whole subtree. -/
theorem notify_traversal_once_per_module_and_matching :
    (∀ (tops : List SCObject) (j : Nat),
      (notify_suspend_list tops).count j = module_count_list tops j) ∧
    (∀ tops : List SCObject, notify_resume_list tops = notify_suspend_list tops) ∧
    (∀ (i : Nat) (cs : List SCObject),
      notify_suspend_obj (SCObject.node i true cs) = notify_suspend_list cs ++ [i]) :=
  ⟨fun tops j => count_notify_suspend_list tops j,
   fun tops => notify_resume_list_eq_suspend tops,
   fun i cs => by rw [notify_suspend_obj]; simp⟩

/-! ### The boundary hook -/

theorem waitLoop_registry_empty (evs : List Event) :
    ∀ s s' : SysState, waitLoop s evs = some s' → s'.registry = [] := by
  induction evs with
  | nil =>
    intro s s' h
    rw [waitLoop] at h
    by_cases he : s.registry.isEmpty
    · rw [if_pos he, Option.some.injEq] at h
      rw [← h]
      exact List.isEmpty_iff.mp he
    · rw [if_neg he] at h
      exact absurd h (by simp)
  | cons e rest ih =>
    intro s s' h
    rw [waitLoop] at h
    by_cases he : s.registry.isEmpty
    · rw [if_pos he, Option.some.injEq] at h
      rw [← h]
      exact List.isEmpty_iff.mp he
    · rw [if_neg he] at h
      exact ih _ _ h

/-- C4: the boundary hook.  With an empty registry it returns at once
with the state untouched and neither notification invoked.  When the
registry is non-empty and the wait completes, the paused flag was set
during the wait, each hierarchy notification ran exactly once, and on
return the registry is empty and the paused flag cleared. -/
theorem handle_requests_boundary (s : SysState) (events : List Event) :
    (count1 s = 0 → handle_requests1 s events = some ⟨s, 0, 0, false⟩) ∧
    (∀ r : HRResult, handle_requests1 s events = some r → count1 s ≠ 0 →
      r.preCount = 1 ∧ r.postCount = 1 ∧ r.pausedDuring = true ∧
      r.state.suspended = false ∧ r.state.lock_held = true ∧
      r.state.registry = []) := by
  constructor
  · intro h
    rw [handle_requests1, if_pos h]
  · intro r h hne
    rw [handle_requests1, if_neg hne] at h
    cases hw : waitLoop { s with suspended := true, lock_held := false } events with
    | none =>
      simp only [hw] at h
      exact absurd h (by simp)
    | some s2 =>
      simp only [hw, Option.some.injEq] at h
      have hreg := waitLoop_registry_empty events _ _ hw
      rw [← h]
      exact ⟨rfl, rfl, rfl, rfl, rfl, hreg⟩

/-- The boundary state of the C4 witness: identity 1 registered. -/
def sHR : SysState :=
  (suspend1 s0 1).1

/-- The outcome of the C4 witness boundary invocation. -/
def rHR : HRResult :=
  ⟨{ registry := []
     pcounts := updFn (updFn (fun _ => 0) 1 1) 1 0
     suspended := false
     lock_held := true
     running := true
     notifyCount := 1 }, 1, 1, true⟩

/-- Witness for C4: the empty fast path at the initial state, and a
full pause/resume cycle in which an external resume event empties the
registry. -/
theorem handle_requests_boundary_witness :
    handle_requests1 s0 [] = some ⟨s0, 0, 0, false⟩ ∧
    (rHR.preCount = 1 ∧ rHR.postCount = 1 ∧ rHR.pausedDuring = true ∧
     rHR.state.suspended = false ∧ rHR.state.lock_held = true ∧
     rHR.state.registry = []) :=
  ⟨(handle_requests_boundary s0 []).1 rfl,
   (handle_requests_boundary sHR [Event.resumeEv 1]).2 rHR rfl (by decide)⟩

/-! ### Matched suspend/resume sequences -/

theorem run1_cons_ok {s s2 : SysState} {op : Op} (h : step1 s op = (s2, none))
    (ops : List Op) : run1 s (op :: ops) = run1 s2 ops := by
  rw [run1, h]

theorem run1_append (l1 l2 : List Op) :
    ∀ s s1 : SysState, run1 s l1 = (s1, none) → run1 s (l1 ++ l2) = run1 s1 l2 := by
  induction l1 with
  | nil =>
    intro s s1 h
    rw [run1] at h
    rw [Prod.mk.injEq] at h
    rw [List.nil_append, h.1]
  | cons op ops ih =>
    intro s s1 h
    rw [List.cons_append, run1]
    rw [run1] at h
    cases hstep : step1 s op with
    | mk s2 e =>
      rw [hstep] at h
      cases e with
      | none => exact ih _ _ h
      | some err =>
        rw [Prod.mk.injEq] at h
        exact absurd h.2 (by simp)

theorem run1_replicate_suspend (id : Nat) :
    ∀ (n : Nat) (s : SysState), 0 < s.pcounts id →
      run1 s (List.replicate n (Op.suspendOp id)) =
        ({ s with pcounts := updFn s.pcounts id (s.pcounts id + n) }, none) := by
  intro n
  induction n with
  | zero =>
    intro s h
    rw [List.replicate, run1]
    rw [show s.pcounts id + ((0 : Nat) : Int) = s.pcounts id by simp, updFn_self]
  | succ n ih =>
    intro s h
    have hne : ¬ s.pcounts id = 0 := by omega
    have hstep : step1 s (Op.suspendOp id) =
        ({ s with pcounts := updFn s.pcounts id (s.pcounts id + 1) }, none) := by
      rw [step1, suspend1]
      simp only [if_neg hne]
    rw [List.replicate_succ, run1_cons_ok hstep]
    have hpos : 0 < ({ s with pcounts := updFn s.pcounts id (s.pcounts id + 1) } :
        SysState).pcounts id := by
      simp only [updFn_same]
      omega
    rw [ih _ hpos]
    simp only [updFn_same, updFn_updFn]
    have harith : s.pcounts id + 1 + (n : Int) = s.pcounts id + ((n + 1 : Nat) : Int) := by
      push_cast
      ring
    rw [harith]

theorem run1_replicate_resume (id : Nat) :
    ∀ (n : Nat) (s : SysState), (n : Int) < s.pcounts id →
      run1 s (List.replicate n (Op.resumeOp id)) =
        ({ s with pcounts := updFn s.pcounts id (s.pcounts id - n) }, none) := by
  intro n
  induction n with
  | zero =>
    intro s h
    rw [List.replicate, run1]
    rw [show s.pcounts id - ((0 : Nat) : Int) = s.pcounts id by simp, updFn_self]
  | succ n ih =>
    intro s h
    have hc : ((n + 1 : Nat) : Int) = (n : Int) + 1 := by push_cast; ring
    rw [hc] at h
    have hz : ¬ s.pcounts id - 1 = 0 := by omega
    have hneg : ¬ s.pcounts id - 1 < 0 := by omega
    have hstep : step1 s (Op.resumeOp id) =
        ({ s with pcounts := updFn s.pcounts id (s.pcounts id - 1) }, none) := by
      rw [step1, resume1]
      simp only [if_neg hz, if_neg hneg]
    rw [List.replicate_succ, run1_cons_ok hstep]
    have hpos : (n : Int) <
        ({ s with pcounts := updFn s.pcounts id (s.pcounts id - 1) } :
          SysState).pcounts id := by
      simp only [updFn_same]
      omega
    rw [ih _ hpos]
    simp only [updFn_same, updFn_updFn]
    have harith : s.pcounts id - 1 - (n : Int) = s.pcounts id - ((n + 1 : Nat) : Int) := by
      push_cast
      ring
    rw [harith]

/-- The state after a full matched suspend/resume cycle of one handle. -/
def afterMatchedPairs (s : SysState) (id : Nat) : SysState :=
  { s with
      registry := stl_remove_erase (stl_add_unique s.registry id) id,
      pcounts := updFn s.pcounts id 0,
      notifyCount :=
        if (stl_remove_erase (stl_add_unique s.registry id) id).isEmpty then
          s.notifyCount + 1
        else s.notifyCount }

/-- C8: for every n ≥ 1, a handle starting at nesting counter 0 under
a running simulation that performs n `suspend()` calls followed by n
`resume()` calls ends with counter 0, its identity removed from the
registry, `is_suspending()` false, and no report raised anywhere in
the sequence. -/
theorem matched_suspend_resume_pairs (s : SysState) (id n : Nat)
    (hrun : s.running = true) (hp : s.pcounts id = 0) (hn : 1 ≤ n) :
    ∃ s' : SysState,
      run1 s (List.replicate n (Op.suspendOp id) ++ List.replicate n (Op.resumeOp id)) =
        (s', none) ∧
      s'.pcounts id = 0 ∧ is_suspending1 s' id = false ∧
      s'.registry = stl_remove_erase s.registry id := by
  obtain ⟨m, rfl⟩ : ∃ m, n = m + 1 := ⟨n - 1, (Nat.succ_pred_eq_of_pos hn).symm⟩
  -- the first suspend registers the identity
  have hstep1 : step1 s (Op.suspendOp id) =
      ({ s with registry := stl_add_unique s.registry id,
                pcounts := updFn s.pcounts id 1 }, none) := by
    rw [step1, suspend1, request_pause1]
    simp only [hp, if_pos rfl, hrun, if_pos]
    norm_num
  have hA : run1 s (List.replicate (m + 1) (Op.suspendOp id)) =
      ({ s with registry := stl_add_unique s.registry id,
                pcounts := updFn s.pcounts id (1 + (m : Int)) }, none) := by
    rw [List.replicate_succ, run1_cons_ok hstep1]
    rw [run1_replicate_suspend id m _ (by simp only [updFn_same]; omega)]
    simp only [updFn_same, updFn_updFn]
  have hB : run1 ({ s with registry := stl_add_unique s.registry id,
                           pcounts := updFn s.pcounts id (1 + (m : Int)) })
      (List.replicate m (Op.resumeOp id)) =
      ({ s with registry := stl_add_unique s.registry id,
                pcounts := updFn s.pcounts id 1 }, none) := by
    rw [run1_replicate_resume id m _ (by simp only [updFn_same]; omega)]
    simp only [updFn_same, updFn_updFn]
    rw [show (1 : Int) + (m : Int) - (m : Int) = 1 by ring]
  -- the last resume removes the identity
  have hstepC : step1 ({ s with registry := stl_add_unique s.registry id,
                                pcounts := updFn s.pcounts id 1 })
      (Op.resumeOp id) =
      ({ s with registry := stl_remove_erase (stl_add_unique s.registry id) id,
                pcounts := updFn s.pcounts id 0,
                notifyCount :=
                  if (stl_remove_erase (stl_add_unique s.registry id) id).isEmpty then
                    s.notifyCount + 1
                  else s.notifyCount }, none) := by
    rw [step1, resume1, request_resume1]
    simp only [updFn_same, updFn_updFn]
    norm_num
  refine ⟨afterMatchedPairs s id, ?_, ?_, ?_, ?_⟩
  · rw [run1_append _ _ _ _ hA]
    rw [List.replicate_succ' m (Op.resumeOp id)]
    rw [run1_append _ _ _ _ hB]
    rw [run1_cons_ok hstepC, run1, afterMatchedPairs]
  · simp only [afterMatchedPairs, updFn_same]
  · simp only [afterMatchedPairs, is_suspending1]
    rw [stl_contains_false_iff]
    rw [stl_remove_erase_add_unique, mem_stl_remove_erase]
    simp
  · simp only [afterMatchedPairs]
    exact stl_remove_erase_add_unique s.registry id

/-- Witness for C8: two nested suspends followed by two resumes on the
initial state. -/
theorem matched_suspend_resume_pairs_witness :
    ∃ s' : SysState,
      run1 s0 (List.replicate 2 (Op.suspendOp 1) ++ List.replicate 2 (Op.resumeOp 1)) =
        (s', none) ∧
      s'.pcounts 1 = 0 ∧ is_suspending1 s' 1 = false ∧
      s'.registry = stl_remove_erase s0.registry 1 :=
  matched_suspend_resume_pairs s0 1 2 rfl rfl (by decide)

/-! ### The registry/counter invariant -/

/-- The registry invariant: no duplicate identities, membership holds
exactly for the identities with positive nesting counter, and no
counter is negative. -/
def Inv (s : SysState) : Prop :=
  s.registry.Nodup ∧ (∀ j, j ∈ s.registry ↔ 0 < s.pcounts j) ∧ (∀ j, 0 ≤ s.pcounts j)

/-- States reachable from the initial state by successful (report-free)
suspend, resume and handle-teardown operations — every Gate/handle
operation except `force_resume`. -/
inductive ReachableNF : SysState → Prop where
  | init : ReachableNF s0
  | suspendStep (s : SysState) (id : Nat) :
      ReachableNF s → (suspend1 s id).2 = none → ReachableNF (suspend1 s id).1
  | resumeStep (s : SysState) (id : Nat) :
      ReachableNF s → (resume1 s id).2 = none → ReachableNF (resume1 s id).1
  | dtorStep (s : SysState) (id : Nat) :
      ReachableNF s → (dtor1 s id).2 = none → ReachableNF (dtor1 s id).1

theorem inv_suspend1 (s : SysState) (id : Nat) (hinv : Inv s)
    (he : (suspend1 s id).2 = none) : Inv (suspend1 s id).1 := by
  obtain ⟨hnd, hmem, hnn⟩ := hinv
  by_cases h0 : s.pcounts id = 0
  · have hr : s.running = true := by
      by_contra hr
      rw [Bool.not_eq_true] at hr
      rw [suspend1] at he
      simp only [h0, if_pos rfl, request_pause1, hr] at he
      exact absurd he (by simp)
    have hni : id ∉ s.registry := fun hc => by
      have := (hmem id).mp hc
      omega
    have hstate : (suspend1 s id).1 =
        { s with registry := stl_add_unique s.registry id,
                 pcounts := updFn s.pcounts id 1 } := by
      rw [suspend1]
      simp only [h0, if_pos rfl, request_pause1, hr, if_pos]
      norm_num
    rw [hstate]
    have hadd : stl_add_unique s.registry id = s.registry ++ [id] := by
      rw [stl_add_unique, if_neg]
      rw [Bool.not_eq_true, stl_contains_false_iff]
      exact hni
    refine ⟨?_, ?_, ?_⟩
    · simp only [hadd]
      rw [List.nodup_append]
      refine ⟨hnd, List.nodup_singleton id, ?_⟩
      intro a ha hb
      rw [List.mem_singleton] at hb
      subst hb
      exact hni ha
    · intro j
      simp only [hadd, List.mem_append, List.mem_singleton, updFn]
      by_cases hj : j = id
      · subst hj
        simp [hni]
      · simp [hj, hmem j]
    · intro j
      simp only [updFn]
      by_cases hj : j = id
      · simp [hj]
      · simp only [if_neg hj]
        exact hnn j
  · have hpos : 0 < s.pcounts id := by
      have := hnn id
      omega
    have hstate : (suspend1 s id).1 =
        { s with pcounts := updFn s.pcounts id (s.pcounts id + 1) } := by
      rw [suspend1]
      simp only [if_neg h0]
    rw [hstate]
    refine ⟨hnd, ?_, ?_⟩
    · intro j
      simp only [updFn]
      by_cases hj : j = id
      · subst hj
        constructor
        · intro _
          omega
        · intro _
          exact (hmem j).mpr hpos
      · simp only [if_neg hj]
        exact hmem j
    · intro j
      simp only [updFn]
      by_cases hj : j = id
      · simp only [if_pos hj]
        omega
      · simp only [if_neg hj]
        exact hnn j

theorem inv_resume1 (s : SysState) (id : Nat) (hinv : Inv s)
    (he : (resume1 s id).2 = none) : Inv (resume1 s id).1 := by
  obtain ⟨hnd, hmem, hnn⟩ := hinv
  have hge : ¬ s.pcounts id - 1 < 0 := by
    by_contra hc
    rw [resume1] at he
    simp only [if_pos hc] at he
    exact absurd he (by simp)
  have hpos : 0 < s.pcounts id := by omega
  by_cases hz : s.pcounts id - 1 = 0
  · have hstate : (resume1 s id).1 =
        request_resume1 { s with pcounts := updFn s.pcounts id (s.pcounts id - 1) } id := by
      rw [resume1]
      simp only [if_pos hz]
    rw [hstate, request_resume1]
    refine ⟨List.Nodup.filter _ hnd, ?_, ?_⟩
    · intro j
      show j ∈ stl_remove_erase s.registry id ↔ _
      rw [mem_stl_remove_erase]
      simp only [updFn]
      by_cases hj : j = id
      · subst hj
        simp [hz]
      · simp [hj, hmem j]
    · intro j
      simp only [updFn]
      by_cases hj : j = id
      · simp only [if_pos hj]
        omega
      · simp only [if_neg hj]
        exact hnn j
  · have hstate : (resume1 s id).1 =
        { s with pcounts := updFn s.pcounts id (s.pcounts id - 1) } := by
      rw [resume1]
      simp only [if_neg hz]
    rw [hstate]
    refine ⟨hnd, ?_, ?_⟩
    · intro j
      simp only [updFn]
      by_cases hj : j = id
      · subst hj
        simp only [if_pos rfl]
        constructor
        · intro _
          omega
        · intro _
          exact (hmem j).mpr hpos
      · simp only [if_neg hj]
        exact hmem j
    · intro j
      simp only [updFn]
      by_cases hj : j = id
      · simp only [if_pos hj]
        omega
      · simp only [if_neg hj]
        exact hnn j

theorem inv_dtor1 (s : SysState) (id : Nat) (hinv : Inv s)
    (he : (dtor1 s id).2 = none) : Inv (dtor1 s id).1 := by
  by_cases h : is_suspending1 s id
  · have hd : dtor1 s id = resume1 s id := by
      rw [dtor1, if_pos h]
    rw [hd] at he ⊢
    exact inv_resume1 s id hinv he
  · have hd : dtor1 s id = (s, none) := by
      rw [dtor1, if_neg h]
    rw [hd]
    exact hinv

theorem inv_of_reachable {s : SysState} (h : ReachableNF s) : Inv s := by
  induction h with
  | init =>
    refine ⟨List.nodup_nil, ?_, ?_⟩ <;> intro j <;> simp [s0]
  | suspendStep s id _ he ih => exact inv_suspend1 s id ih he
  | resumeStep s id _ he ih => exact inv_resume1 s id ih he
  | dtorStep s id _ he ih => exact inv_dtor1 s id ih he

/-- C3 counterexample: `force_resume` clears the registry without
touching the nesting counters.  After one `suspend()` and one
`force_resume()`, identity 1 has counter 1 > 0 yet is not registered,
and `count()` is 0 — not the number of identities with positive
counter. -/
theorem count_invariant_fails_after_force_resume :
    0 < (force_resume1 (suspend1 s0 1).1).pcounts 1 ∧
    (1 ∈ (force_resume1 (suspend1 s0 1).1).registry ↔ False) ∧
    count1 (force_resume1 (suspend1 s0 1).1) = 0 := by
  decide

/-- C3 amended: in every state reachable by report-free suspend,
resume and teardown operations — excluding `force_resume` — `count()`
equals the number of distinct identities with nesting counter > 0:
for any duplicate-free list `L` covering the identities with positive
counter, `count()` is the length of `L` filtered to those identities
(and membership holds exactly for them). -/
theorem count_matches_active_of_reachable (s : SysState) (L : List Nat)
    (h : ReachableNF s) (hL : L.Nodup)
    (hcov : ∀ j, 0 < s.pcounts j → j ∈ L) :
    count1 s = (L.filter (fun j => decide (0 < s.pcounts j))).length ∧
    (∀ j, j ∈ s.registry ↔ 0 < s.pcounts j) := by
  obtain ⟨hnd, hmem, _⟩ := inv_of_reachable h
  refine ⟨?_, hmem⟩
  have hperm : s.registry.Perm (L.filter (fun j => decide (0 < s.pcounts j))) := by
    rw [List.perm_ext_iff_of_nodup hnd (List.Nodup.filter _ hL)]
    intro a
    rw [List.mem_filter]
    constructor
    · intro ha
      have hp := (hmem a).mp ha
      exact ⟨hcov a hp, by simpa using hp⟩
    · intro ha
      exact (hmem a).mpr (by simpa using ha.2)
  rw [count1, hperm.length_eq]

/-- The C3 witness state: identity 1 suspended once from the initial
state. -/
def sActive : SysState :=
  (suspend1 s0 1).1

/-- Witness for the amended C3 at a concrete reachable state. -/
theorem count_matches_active_of_reachable_witness :
    count1 sActive = (([1] : List Nat).filter (fun j => decide (0 < sActive.pcounts j))).length ∧
    (∀ j, j ∈ sActive.registry ↔ 0 < sActive.pcounts j) :=
  count_matches_active_of_reachable sActive [1]
    (ReachableNF.suspendStep s0 1 ReachableNF.init rfl)
    (List.nodup_singleton 1)
    (by
      have hpc : sActive.pcounts = updFn (fun _ => 0) 1 1 := rfl
      intro j hj
      by_cases hje : j = 1
      · simp [hje]
      · rw [hpc] at hj
        simp [updFn, hje] at hj)

end VcmlSuspend
